import Mathlib

/-!
Verification of the peer-conference signaling relay (Rust sources under
`src/video_conference_backend/`) against its natural-language specification.

The repository contains two dispatchers:

* `src/main.rs` — the challenge server: registry `HashMap<SocketAddr, ClientState>`,
  handlers `handle_offer_with_challenge`, `handle_challenge_response`,
  `handle_answer`, `handle_chat`, `handle_screen_share`, plus
  `broadcast_to_peers`, `cleanup_client` and `verify_payload_signature`.
* `src/signaling/server.rs` + `src/signaling/handlers.rs` — the secure server:
  registry `HashMap<SocketAddr, Client>` (`src/models/client.rs`), handlers
  `handle_secure_offer`, `handle_secure_answer`, `broadcast_to_verified_peers`
  and `verify_signature`.

Modelling conventions:
* byte strings are `List Nat`; socket addresses are `Nat`; each client's
  outbound mpsc channel is identified with its registry key, so a send into a
  client's channel is recorded as a pair `(addr, serialized message)`;
* `serde_json` string payloads are embedded as a structured sum `PayloadData`:
  a typed parse succeeds exactly on the matching constructor, which models
  that a wire string either deserializes into the handler's expected type or
  fails (the `rawText` constructor covers free-form and malformed payloads);
* the external cryptographic primitive (the `p256` / `ed25519_dalek` crates —
  key parsing, signature parsing and curve arithmetic, all outside this
  repository) is a parameter `CryptoVerify : key → sig → message → Bool`;
  the SHA-256 digest of the `sha2` crate is a parameter `HashFn`;
* tokio mutex acquisition order and `.await` points are modelled separately
  as explicit event traces (`LockEvent`) read off the control flow of the
  source functions.
-/

namespace PeerConference

/-- Raw byte strings (`Vec<u8>` in the source). -/
abbrev Bytes := List Nat

/-- Socket addresses (`SocketAddr`), abstracted to a countable identifier. -/
abbrev Addr := Nat

/-- The external cryptographic primitive: public key, signature, message. It
bundles key parsing, signature parsing and the curve check of the `p256`
crate; every failure mode returns `false`. -/
abbrev CryptoVerify := Bytes → Bytes → Bytes → Bool

/-- The external SHA-256 digest of the `sha2` crate. -/
abbrev HashFn := Bytes → Bytes

/-- The `ip()` part of a socket address, as the source's
`sender_addr.ip().to_string()`. -/
def ipOf (a : Addr) : String := toString a

/-- Struct `EncryptedPayload` of `src/main.rs`. -/
structure EncryptedPayload where
  encrypted : Bytes
  iv : Bytes
  sender_ip : String
  signature : Bytes
deriving DecidableEq, Repr

/-- Struct `ConnectionVerificationPayload` of `src/main.rs`; the `offer` field is an
opaque `serde_json::Value`, embedded as its serialized text. -/
structure ConnectionVerificationPayload where
  challenge : Bytes
  offer : String
  encrypted_data : Option EncryptedPayload
  connection_message : Option String
  public_key : Bytes
  signature : Bytes
deriving DecidableEq, Repr

/-- Struct `ChallengeResponsePayload` of `src/main.rs`. -/
structure ChallengeResponsePayload where
  challenge : Bytes
  challenge_response : Bytes
deriving DecidableEq, Repr

/-- Struct `ChatMessage` of `src/main.rs`. -/
structure ChatMessage where
  text : String
  sender : String
  timestamp : String
deriving DecidableEq, Repr

/-- Struct `SecureConnectionPayload` of `src/models/message.rs`. -/
structure SecureConnectionPayload where
  offer : String
  public_key : Bytes
  signature : Bytes
  nonce : Bytes
deriving DecidableEq, Repr

/-- The wire `payload` string of a signal, embedded structurally: each typed
`serde_json::from_str` on the payload succeeds exactly on the matching
constructor; `rawText` stands for free-form payloads (ice candidates,
screen-share blobs, plain strings) and for text that parses as none of the
typed shapes. -/
inductive PayloadData where
  | connVerification (p : ConnectionVerificationPayload)
  | challengeResp (p : ChallengeResponsePayload)
  | chatData (m : ChatMessage)
  | secureConn (p : SecureConnectionPayload)
  | rawText (s : String)
deriving DecidableEq, Repr

/-- Parse `serde_json::from_str::<ConnectionVerificationPayload>` on a payload. -/
def parseConnVerification : PayloadData → Option ConnectionVerificationPayload
  | .connVerification p => some p
  | _ => none

/-- Parse `serde_json::from_str::<ChallengeResponsePayload>` on a payload. -/
def parseChallengeResp : PayloadData → Option ChallengeResponsePayload
  | .challengeResp p => some p
  | _ => none

/-- Parse `serde_json::from_str::<ChatMessage>` on a payload. -/
def parseChat : PayloadData → Option ChatMessage
  | .chatData m => some m
  | _ => none

/-- Parse `serde_json::from_str::<SecureConnectionPayload>` on a payload. -/
def parseSecureConn : PayloadData → Option SecureConnectionPayload
  | .secureConn p => some p
  | _ => none

/-- Struct `SignalMessage` of `src/main.rs`: `signal_type`, `payload`, `sender_ip`,
`timestamp`. -/
structure SignalMessage where
  signal_type : String
  payload : PayloadData
  sender_ip : Option String
  timestamp : Int
deriving DecidableEq, Repr

/-- Deterministic serialization of a byte string. -/
def serializeBytes (b : Bytes) : String :=
  String.intercalate "," (b.map (fun n => toString n))

/-- Deterministic serialization of an optional text field. -/
def serializeOptString : Option String → String
  | some s => s
  | none => "null"

/-- Deterministic serialization of an `EncryptedPayload`. -/
def serializeEncrypted (e : EncryptedPayload) : String :=
  serializeBytes e.encrypted ++ ";" ++ serializeBytes e.iv ++ ";" ++
    e.sender_ip ++ ";" ++ serializeBytes e.signature

/-- Deterministic serialization of a `ConnectionVerificationPayload`. -/
def serializeConnVerification (p : ConnectionVerificationPayload) : String :=
  serializeBytes p.challenge ++ ";" ++ p.offer ++ ";" ++
    (match p.encrypted_data with
      | some e => serializeEncrypted e
      | none => "null") ++ ";" ++
    serializeOptString p.connection_message ++ ";" ++
    serializeBytes p.public_key ++ ";" ++ serializeBytes p.signature

/-- Deterministic serialization of a payload, standing for
`serde_json::to_string` on the corresponding Rust value. -/
def serializePayloadData : PayloadData → String
  | .connVerification p => serializeConnVerification p
  | .challengeResp p =>
      serializeBytes p.challenge ++ ";" ++ serializeBytes p.challenge_response
  | .chatData m => m.text ++ ";" ++ m.sender ++ ";" ++ m.timestamp
  | .secureConn p =>
      p.offer ++ ";" ++ serializeBytes p.public_key ++ ";" ++
        serializeBytes p.signature ++ ";" ++ serializeBytes p.nonce
  | .rawText s => s

/-- Serialization `serde_json::to_string(&signal)` for the challenge server's
`SignalMessage`: the one canonical serialization a broadcast computes once. -/
def serializeSignal (s : SignalMessage) : String :=
  s.signal_type ++ "#" ++ serializePayloadData s.payload ++ "#" ++
    serializeOptString s.sender_ip ++ "#" ++ toString s.timestamp

/-- UTF-8 bytes of a string (`String::as_bytes`). -/
def strToBytes (s : String) : Bytes := s.data.map Char.toNat

/-- Struct `ClientState` of `src/main.rs`. The `sender` mpsc channel is identified
with the client's registry key, so it carries no separate field. -/
structure ClientState where
  connected_peers : List Addr
  is_screen_sharing : Bool
  challenges : List (Bytes × Bool)
deriving DecidableEq, Repr

/-- The fresh `ClientState` inserted by `handle_connection` at registration:
no peers, not sharing, empty challenge map. -/
def freshClientState : ClientState :=
  { connected_peers := [], is_screen_sharing := false, challenges := [] }

/-- The challenge server's registry `HashMap<SocketAddr, ClientState>`,
as an association list. -/
abbrev Registry := List (Addr × ClientState)

/-- A message enqueued into a client's outbound channel: target client and
the serialized text that was sent. -/
abbrev Sent := Addr × String

/-- Lookup `clients_map.get(&a)` / `get_mut(&a)` in the registry. -/
def lookupClient (reg : Registry) (a : Addr) : Option ClientState :=
  (reg.find? (fun e => decide (e.1 = a))).map (·.2)

/-- Mutation of the entry at key `a` through `get_mut` (no effect when the
key is absent). -/
def updateClient (reg : Registry) (a : Addr) (f : ClientState → ClientState) :
    Registry :=
  reg.map (fun e => if e.1 = a then (e.1, f e.2) else e)

/-- Removal `clients_map.remove(&a)` — erase the entry at key `a`. -/
def removeClient (reg : Registry) (a : Addr) : Registry :=
  reg.filter (fun e => decide (e.1 ≠ a))

/-- Insertion `clients_map.insert(a, st)` — insert, replacing any previous entry. -/
def insertClient (reg : Registry) (a : Addr) (st : ClientState) : Registry :=
  (a, st) :: removeClient reg a

/-- Test `challenges.contains_key(&c)` on a client's challenge map. -/
def challengeContains (m : List (Bytes × Bool)) (c : Bytes) : Bool :=
  (m.find? (fun e => decide (e.1 = c))).isSome

/-- The resolved flag stored for challenge `c`, when present. -/
def challengeLookup (m : List (Bytes × Bool)) (c : Bytes) : Option Bool :=
  (m.find? (fun e => decide (e.1 = c))).map (·.2)

/-- Insertion `challenges.insert(c, v)` — replace the entry when the key is present,
append it otherwise. -/
def challengeInsert (m : List (Bytes × Bool)) (c : Bytes) (v : Bool) :
    List (Bytes × Bool) :=
  if challengeContains m c then
    m.map (fun e => if e.1 = c then (c, v) else e)
  else
    m ++ [(c, v)]

/-- The canonical signed subset `json!({challenge, offer, encrypted_data,
connection_message})` that `verify_payload_signature` reconstructs and
serializes before handing it to the primitive. -/
def verificationMessage (payload : ConnectionVerificationPayload) : String :=
  serializeBytes payload.challenge ++ "|" ++ payload.offer ++ "|" ++
    (match payload.encrypted_data with
      | some e => serializeEncrypted e
      | none => "null") ++ "|" ++
    serializeOptString payload.connection_message

/-- Function `verify_payload_signature` of `src/main.rs`: challenge must be 32 bytes,
public key 294 bytes, signature 64 bytes; only then is the canonical subset
`(challenge, offer, encrypted_data, connection_message)` serialized and
handed to the cryptographic primitive. (After the 64-byte check the source's
`try_into().unwrap()` cannot fail.) -/
def verify_payload_signature (crypto : CryptoVerify)
    (payload : ConnectionVerificationPayload) : Bool :=
  if payload.challenge.length ≠ 32 then false
  else if payload.public_key.length ≠ 294 then false
  else if payload.signature.length ≠ 64 then false
  else
    crypto payload.public_key payload.signature
      (strToBytes (verificationMessage payload))

/-- Function `validate_encrypted_payload` of `src/main.rs`. -/
def validate_encrypted_payload (payload : EncryptedPayload) :
    Except String Unit :=
  if payload.encrypted = [] then .error "Missing 'encrypted' field"
  else if payload.iv = [] then .error "Missing 'iv' field"
  else if payload.sender_ip = "" then .error "Missing 'sender_ip' field"
  else if payload.signature = [] then .error "Missing 'signature' field"
  else .ok ()

/-- Function `broadcast_to_peers` of `src/main.rs`: serialize the signal once, then
send the identical text to every registered client other than the sender. -/
def broadcast_to_peers (signal : SignalMessage) (sender_addr : Addr)
    (reg : Registry) : List Sent :=
  let signal_json := serializeSignal signal
  (reg.filter (fun e => decide (e.1 ≠ sender_addr))).map
    (fun e => (e.1, signal_json))

/-- The `challenge-response` envelope that `handle_offer_with_challenge`
builds around the re-serialized offer payload before fanning it out. -/
def challenge_response_envelope (payload : ConnectionVerificationPayload)
    (sender_addr : Addr) (now : Int) : SignalMessage :=
  { signal_type := "challenge-response",
    payload := .connVerification payload,
    sender_ip := some (ipOf sender_addr),
    timestamp := now }

/-- The `connection-verified` signal that `handle_challenge_response` builds
when a challenge is accepted. -/
def connection_verified_signal (sender_addr : Addr) (now : Int) :
    SignalMessage :=
  { signal_type := "connection-verified",
    payload := .rawText "Connection established",
    sender_ip := some (ipOf sender_addr),
    timestamp := now }

/-- Handler `handle_offer_with_challenge` of `src/main.rs`: parse the payload,
require a present and well-formed `encrypted_data`, verify the signature,
store the challenge unresolved under the sender, then broadcast the payload
to the other clients inside a `challenge-response` envelope. Returns the
updated registry and the enqueued sends. -/
def handle_offer_with_challenge (crypto : CryptoVerify)
    (signal : SignalMessage) (sender_addr : Addr) (now : Int)
    (reg : Registry) : Registry × List Sent :=
  match parseConnVerification signal.payload with
  | none => (reg, [])
  | some payload =>
    match payload.encrypted_data with
    | none => (reg, [])
    | some encrypted_data =>
      match validate_encrypted_payload encrypted_data with
      | .error _ => (reg, [])
      | .ok _ =>
        if verify_payload_signature crypto payload then
          let reg' := updateClient reg sender_addr (fun st =>
            { st with
                challenges := challengeInsert st.challenges payload.challenge false })
          (reg', broadcast_to_peers (challenge_response_envelope payload sender_addr now)
            sender_addr reg')
        else (reg, [])

/-- Handler `handle_challenge_response` of `src/main.rs`: parse the payload; if the
sender's challenge map contains the key (the stored resolved flag is not
consulted), overwrite it with `true` and broadcast `connection-verified` to
the other clients. -/
def handle_challenge_response (signal : SignalMessage) (sender_addr : Addr)
    (now : Int) (reg : Registry) : Registry × List Sent :=
  match parseChallengeResp signal.payload with
  | none => (reg, [])
  | some payload =>
    match lookupClient reg sender_addr with
    | none => (reg, [])
    | some st =>
      if challengeContains st.challenges payload.challenge then
        let reg' := updateClient reg sender_addr (fun s =>
          { s with challenges := challengeInsert s.challenges payload.challenge true })
        (reg', broadcast_to_peers (connection_verified_signal sender_addr now)
          sender_addr reg')
      else (reg, [])

/-- Function `extract_offer_sender` of `src/main.rs` — the placeholder that always
returns `None`. -/
def extract_offer_sender (_payload : PayloadData) : Option Addr := none

/-- Handler `handle_answer` of `src/main.rs`: route the answer to the original
offerer when `extract_offer_sender` finds one (it never does). -/
def handle_answer (signal : SignalMessage) (_sender_addr : Addr)
    (reg : Registry) : Registry × List Sent :=
  match extract_offer_sender signal.payload with
  | none => (reg, [])
  | some offer_sender =>
    match lookupClient reg offer_sender with
    | none => (reg, [])
    | some _ => (reg, [(offer_sender, serializeSignal signal)])

/-- Handler `handle_chat` of `src/main.rs`: broadcast only when the payload parses
as a `ChatMessage`. -/
def handle_chat (signal : SignalMessage) (sender_addr : Addr)
    (reg : Registry) : Registry × List Sent :=
  match parseChat signal.payload with
  | none => (reg, [])
  | some _ => (reg, broadcast_to_peers signal sender_addr reg)

/-- Handler `handle_screen_share` of `src/main.rs`, as the state transformation its
body describes: set the sender's `is_screen_sharing` flag and broadcast the
signal. (The source performs the broadcast while still holding the registry
lock; that locking behaviour is modelled separately by
`handle_screen_share_events`.) -/
def handle_screen_share (signal : SignalMessage) (sender_addr : Addr)
    (reg : Registry) : Registry × List Sent :=
  match lookupClient reg sender_addr with
  | none => (reg, [])
  | some _ =>
    let reg' := updateClient reg sender_addr (fun st =>
      { st with is_screen_sharing := signal.signal_type == "screen-share-start" })
    (reg', broadcast_to_peers signal sender_addr reg')

/-- Function `cleanup_client` of `src/main.rs`: remove the entry; when it existed,
send one `peer-disconnected` message to each of its `connected_peers` still
present in the registry after the removal. -/
def cleanup_client (addr : Addr) (now : Int) (reg : Registry) :
    Registry × List Sent :=
  match lookupClient reg addr with
  | none => (reg, [])
  | some client_state =>
    let reg' := removeClient reg addr
    let disconnect_signal : SignalMessage :=
      { signal_type := "peer-disconnected",
        payload := .rawText (toString addr),
        sender_ip := some (ipOf addr),
        timestamp := now }
    let signal_json := serializeSignal disconnect_signal
    (reg', client_state.connected_peers.filterMap (fun p =>
      if (lookupClient reg' p).isSome then some (p, signal_json) else none))

/-- One inbound websocket text frame: either it deserializes as a
`SignalMessage` or it is malformed. -/
inductive Inbound where
  | wellFormed (s : SignalMessage)
  | malformed (text : String)
deriving DecidableEq, Repr

/-- Parse `serde_json::from_str::<SignalMessage>` on an inbound frame. -/
def parseSignal : Inbound → Option SignalMessage
  | .wellFormed s => some s
  | .malformed _ => none

/-- The dispatch table of `handle_connection` in `src/main.rs`: the match on
`signal.signal_type`. Unknown types are discarded. -/
def main_dispatch (crypto : CryptoVerify) (signal : SignalMessage)
    (addr : Addr) (now : Int) (reg : Registry) : Registry × List Sent :=
  if signal.signal_type = "offer-with-challenge" then
    handle_offer_with_challenge crypto signal addr now reg
  else if signal.signal_type = "challenge-response" then
    handle_challenge_response signal addr now reg
  else if signal.signal_type = "answer" then
    handle_answer signal addr reg
  else if signal.signal_type = "ice-candidate" then
    (reg, broadcast_to_peers signal addr reg)
  else if signal.signal_type = "chat" then
    handle_chat signal addr reg
  else if signal.signal_type = "screen-share-start" ∨
          signal.signal_type = "screen-share-stop" then
    handle_screen_share signal addr reg
  else
    (reg, [])

/-- One iteration of the receive loop of `handle_connection` in
`src/main.rs`: a frame that fails to parse is dropped (the loop continues);
a parsed signal gets `sender_ip` and `timestamp` overwritten server-side and
is dispatched. -/
def main_receive (crypto : CryptoVerify) (now : Int) (msg : Inbound)
    (addr : Addr) (reg : Registry) : Registry × List Sent :=
  match parseSignal msg with
  | none => (reg, [])
  | some signal0 =>
    let signal := { signal0 with sender_ip := some (ipOf addr), timestamp := now }
    main_dispatch crypto signal addr now reg

/-- The whole receive loop of `src/main.rs` over a list of inbound frames:
every frame is processed; no frame ever terminates the loop. -/
def main_loop (crypto : CryptoVerify) (now : Int) (addr : Addr) :
    List Inbound → Registry → Registry × List Sent
  | [], reg => (reg, [])
  | msg :: rest, reg =>
    let step := main_receive crypto now msg addr reg
    let further := main_loop crypto now addr rest step.1
    (further.1, step.2 ++ further.2)

/-- Struct `SignalMessage` of `src/models/message.rs` (the secure server's envelope):
`signal_type`, `payload`, `sender_id`, `timestamp`, optional `signature`. -/
structure SecureSignalMessage where
  signal_type : String
  payload : PayloadData
  sender_id : String
  timestamp : Int
  signature : Option Bytes
deriving DecidableEq, Repr

/-- Serialization `serde_json::to_string(&signal)` for the secure server's envelope. -/
def serializeSecureSignal (s : SecureSignalMessage) : String :=
  s.signal_type ++ "#" ++ serializePayloadData s.payload ++ "#" ++
    s.sender_id ++ "#" ++ toString s.timestamp ++ "#" ++
    (match s.signature with
      | some b => serializeBytes b
      | none => "null")

/-- Struct `Client` of `src/models/client.rs`. The `sender` mpsc channel is
identified with the client's registry key, so it carries no separate
field. -/
structure Client where
  client_id : String
  address : Addr
  public_key : Option Bytes
  verified : Bool
deriving DecidableEq, Repr

/-- Constructor `Client::new` of `src/models/client.rs`: no public key, unverified. -/
def Client.new (client_id : String) (address : Addr) : Client :=
  { client_id := client_id, address := address,
    public_key := none, verified := false }

/-- The secure server's registry `HashMap<SocketAddr, Client>`. -/
abbrev SecureRegistry := List (Addr × Client)

/-- Lookup in the secure registry. -/
def lookupSecure (reg : SecureRegistry) (a : Addr) : Option Client :=
  (reg.find? (fun e => decide (e.1 = a))).map (·.2)

/-- Mutation of the secure-registry entry at key `a` through `get_mut`. -/
def updateSecure (reg : SecureRegistry) (a : Addr) (f : Client → Client) :
    SecureRegistry :=
  reg.map (fun e => if e.1 = a then (e.1, f e.2) else e)

/-- Removal `clients_map.remove(&a)` on the secure registry. -/
def removeSecure (reg : SecureRegistry) (a : Addr) : SecureRegistry :=
  reg.filter (fun e => decide (e.1 ≠ a))

/-- Function `verify_signature` of `src/signaling/handlers.rs`: the public key must
be 65 or 33 bytes (uncompressed/compressed P-256 point) and the signature 64
bytes; only then is the message serialized, hashed with SHA-256 and handed to
the P-256 primitive. -/
def verify_signature (crypto : CryptoVerify) (sha256 : HashFn)
    (data : String) (signature : Bytes) (public_key : Bytes) : Bool :=
  if public_key.length ≠ 65 ∧ public_key.length ≠ 33 then false
  else if signature.length ≠ 64 then false
  else crypto public_key signature (sha256 (strToBytes data))

/-- Function `broadcast_to_verified_peers` of `src/signaling/handlers.rs`: serialize
once, then send the identical text to every registered client other than the
sender whose `verified` flag is set. -/
def broadcast_to_verified_peers (signal : SecureSignalMessage)
    (sender_addr : Addr) (reg : SecureRegistry) : List Sent :=
  let message := serializeSecureSignal signal
  (reg.filter (fun e => decide (e.1 ≠ sender_addr) && e.2.verified)).map
    (fun e => (e.1, message))

/-- Handler `handle_secure_offer` of `src/signaling/handlers.rs`. The payload parse
uses `?`, so a payload that fails to deserialize propagates an error to the
caller; a failed signature check merely returns `Ok` without mutating
anything. On success the sender's entry stores the public key and is marked
verified, then the signal goes to the verified peers. -/
def handle_secure_offer (crypto : CryptoVerify) (sha256 : HashFn)
    (signal : SecureSignalMessage) (sender_addr : Addr)
    (reg : SecureRegistry) : Except String (SecureRegistry × List Sent) :=
  match parseSecureConn signal.payload with
  | none => .error "invalid SecureConnectionPayload"
  | some payload =>
    if verify_signature crypto sha256 payload.offer payload.signature
        payload.public_key then
      let reg' := updateSecure reg sender_addr (fun c =>
        { c with public_key := some payload.public_key, verified := true })
      .ok (reg', broadcast_to_verified_peers signal sender_addr reg')
    else
      .ok (reg, [])

/-- Handler `handle_secure_answer` of `src/signaling/handlers.rs`. Identical to the
offer path except that the mutation sets only `verified := true` — the
public key the signature was checked against is not stored. -/
def handle_secure_answer (crypto : CryptoVerify) (sha256 : HashFn)
    (signal : SecureSignalMessage) (sender_addr : Addr)
    (reg : SecureRegistry) : Except String (SecureRegistry × List Sent) :=
  match parseSecureConn signal.payload with
  | none => .error "invalid SecureConnectionPayload"
  | some payload =>
    if verify_signature crypto sha256 payload.offer payload.signature
        payload.public_key then
      let reg' := updateSecure reg sender_addr (fun c =>
        { c with verified := true })
      .ok (reg', broadcast_to_verified_peers signal sender_addr reg')
    else
      .ok (reg, [])

/-- Function `cleanup_client` of `src/signaling/server.rs`: remove the entry, notify
nobody. -/
def secure_cleanup_client (addr : Addr) (reg : SecureRegistry) :
    SecureRegistry :=
  removeSecure reg addr

/-- One inbound frame of the secure server. -/
inductive SecureInbound where
  | wellFormed (s : SecureSignalMessage)
  | malformed (text : String)
deriving DecidableEq, Repr

/-- One iteration of the receive loop of `handle_connection` in
`src/signaling/server.rs`: an envelope that fails to deserialize is silently
skipped (the `if let Ok` falls through); a parsed signal gets `sender_id`
and `timestamp` overwritten and is dispatched, and a handler error is
propagated by `?` to the caller. -/
def secure_process (crypto : CryptoVerify) (sha256 : HashFn)
    (client_id : String) (now : Int) (msg : SecureInbound) (addr : Addr)
    (reg : SecureRegistry) : Except String (SecureRegistry × List Sent) :=
  match msg with
  | .malformed _ => .ok (reg, [])
  | .wellFormed signal0 =>
    let signal := { signal0 with sender_id := client_id, timestamp := now }
    if signal.signal_type = "secure-offer" then
      handle_secure_offer crypto sha256 signal addr reg
    else if signal.signal_type = "secure-answer" then
      handle_secure_answer crypto sha256 signal addr reg
    else if signal.signal_type = "ice-candidate" then
      .ok (reg, broadcast_to_verified_peers signal addr reg)
    else
      .ok (reg, [])

/-- The receive loop of `src/signaling/server.rs` over a list of inbound
frames. A handler error ends `handle_connection` through `?` immediately:
the remaining frames are never processed and — because the early return
skips the code after the loop — `cleanup_client` is not reached. The third
component records the error that terminated the connection, `none` when the
loop consumed every frame. -/
def secure_loop (crypto : CryptoVerify) (sha256 : HashFn)
    (client_id : String) (now : Int) (addr : Addr) :
    List SecureInbound → SecureRegistry →
      SecureRegistry × List Sent × Option String
  | [], reg => (reg, [], none)
  | msg :: rest, reg =>
    match secure_process crypto sha256 client_id now msg addr reg with
    | .error e => (reg, [], some e)
    | .ok (reg', out) =>
      let further := secure_loop crypto sha256 client_id now addr rest reg'
      (further.1, out ++ further.2.1, further.2.2)

/-- Events of the registry mutex and of suspension points, read off the
control flow of the source: `acquire`/`release` bracket a
`clients.lock().await` critical section, `awaitSend` is an `.await` on a
channel send executed at the current lock depth. -/
inductive LockEvent where
  | acquire
  | awaitSend
  | release
deriving DecidableEq, Repr

/-- The event trace of `broadcast_to_peers` in `src/main.rs`: the lock is
taken, every send to a peer is awaited inside the critical section, and the
guard drops at the end of the function. -/
def broadcast_to_peers_events (reg : Registry) (sender_addr : Addr) :
    List LockEvent :=
  [.acquire] ++
    (reg.filter (fun e => decide (e.1 ≠ sender_addr))).map
      (fun _ => LockEvent.awaitSend) ++
  [.release]

/-- The event trace of `handle_screen_share` in `src/main.rs`: the lock is
taken, and — when the sender is registered — `broadcast_to_peers` is called
while the guard is still alive, so the broadcast's own `clients.lock().await`
runs with the lock already held. -/
def handle_screen_share_events (reg : Registry) (sender_addr : Addr) :
    List LockEvent :=
  [.acquire] ++
    (if (lookupClient reg sender_addr).isSome then
      broadcast_to_peers_events reg sender_addr
    else []) ++
  [.release]

/-- The locking discipline of the specification, checked by a depth scan:
an acquire and an awaited send are admissible only at lock depth zero. -/
def lockDepthOk : List LockEvent → Nat → Bool
  | [], _ => true
  | .acquire :: rest, d => (d == 0) && lockDepthOk rest (d + 1)
  | .release :: rest, d => lockDepthOk rest (d - 1)
  | .awaitSend :: rest, d => (d == 0) && lockDepthOk rest d

/-- A trace respects the discipline when the scan from depth zero accepts
it: the registry lock is never re-acquired while held and never held across
an awaited send. -/
def lockDiscipline (t : List LockEvent) : Bool := lockDepthOk t 0

/-- The reachable-state transition events of the challenge server in
`src/main.rs`: a connection registers, receives frames, disconnects. -/
inductive MainEvent where
  | register (a : Addr)
  | receive (a : Addr) (now : Int) (msg : Inbound)
  | disconnect (a : Addr) (now : Int)

/-- The registry transition of one `MainEvent`: registration inserts a fresh
`ClientState`, a received frame runs one receive-loop iteration, a
disconnect runs `cleanup_client`. -/
def main_step (crypto : CryptoVerify) (reg : Registry) :
    MainEvent → Registry
  | .register a => insertClient reg a freshClientState
  | .receive a now msg => (main_receive crypto now msg a reg).1
  | .disconnect a now => (cleanup_client a now reg).1

/-- The challenge-server registry states reachable from the empty registry
through the operations of `src/main.rs`. -/
inductive Reachable (crypto : CryptoVerify) : Registry → Prop
  | init : Reachable crypto []
  | step {reg : Registry} (h : Reachable crypto reg) (e : MainEvent) :
      Reachable crypto (main_step crypto reg e)

/-! ## Concrete scenario data -/

/-- A cryptographic primitive that accepts every (key, signature, message)
triple: it stands for an input whose signature really is valid, and doubles
as the observer for "the primitive was never consulted" arguments (a result
that is `false` even under this primitive was decided by the length checks
alone). -/
def cryptoAccept : CryptoVerify := fun _ _ _ => true

/-- The identity digest, a concrete instance of the SHA-256 parameter. -/
def shaId : HashFn := fun b => b

/-- A 32-byte challenge nonce. -/
def c1Bytes : Bytes := List.replicate 32 3

/-- A well-formed `EncryptedPayload` (all four fields non-empty). -/
def offerEnc : EncryptedPayload :=
  { encrypted := [1], iv := [2], sender_ip := "ip", signature := [3] }

/-- An offer payload that passes every length check of
`verify_payload_signature`: 32-byte challenge, 294-byte key, 64-byte
signature, well-formed encrypted data. -/
def offerPayload : ConnectionVerificationPayload :=
  { challenge := c1Bytes, offer := "offer-blob",
    encrypted_data := some offerEnc, connection_message := none,
    public_key := List.replicate 294 0, signature := List.replicate 64 0 }

/-- An offer payload carrying a 32-byte public key — the Ed25519-style key
length the specification names — with a 64-byte signature. -/
def badKeyPayload : ConnectionVerificationPayload :=
  { challenge := c1Bytes, offer := "o",
    encrypted_data := none, connection_message := none,
    public_key := List.replicate 32 1, signature := List.replicate 64 0 }

/-- A challenge-server registry with two freshly registered clients. -/
def regTwoFresh : Registry := [(1, freshClientState), (2, freshClientState)]

/-- An `ice-candidate` signal as stamped by the dispatcher. -/
def iceSig : SignalMessage :=
  { signal_type := "ice-candidate", payload := .rawText "cand",
    sender_ip := some (ipOf 1), timestamp := 0 }

/-- An inbound `ice-candidate` frame (pre-stamping). -/
def iceInbound : Inbound :=
  .wellFormed { signal_type := "ice-candidate", payload := .rawText "cand",
                sender_ip := none, timestamp := 99 }

/-! ## C5 — length validation precedes the cryptographic primitive -/

/-- C5: for every key/signature length combination outside the accepted set
— `(294, 64)` for `verify_payload_signature` in `src/main.rs`, `(65 or 33,
64)` for `verify_signature` in `src/signaling/handlers.rs` — verification
returns `false` for EVERY cryptographic primitive and digest, so the
key-parsing, signature-parsing and curve steps are never consulted. -/
theorem length_checks_precede_crypto
    (p : ConnectionVerificationPayload) (d : String) (sig pk : Bytes)
    (hp : p.public_key.length ≠ 294 ∨ p.signature.length ≠ 64)
    (hs : (pk.length ≠ 65 ∧ pk.length ≠ 33) ∨ sig.length ≠ 64) :
    ∀ (crypto : CryptoVerify) (sha256 : HashFn),
      verify_payload_signature crypto p = false ∧
      verify_signature crypto sha256 d sig pk = false := by
  intro crypto sha256
  constructor
  · unfold verify_payload_signature
    rcases hp with h | h <;> split_ifs <;> simp_all
  · unfold verify_signature
    rcases hs with h | h <;> split_ifs <;> simp_all

/-- Witness for `length_checks_precede_crypto` at a 32-byte key with a
64-byte signature, under the all-accepting primitive. -/
theorem length_checks_precede_crypto_witness :
    verify_payload_signature cryptoAccept badKeyPayload = false ∧
    verify_signature cryptoAccept shaId "m" (List.replicate 64 0)
      (List.replicate 32 1) = false :=
  length_checks_precede_crypto badKeyPayload "m" (List.replicate 64 0)
    (List.replicate 32 1) (Or.inl (by decide))
    (Or.inl (by decide)) cryptoAccept shaId

/-! ## C6 — the supported signature schemes -/

/-- C6 counterexample: the claimed 32-byte-key/64-byte-signature
Ed25519-style scheme does not exist in the code. A 32-byte key with a
64-byte signature is rejected by both verifiers even under a primitive that
accepts everything — such a key is never "passed on to cryptographic
checking". -/
theorem scheme_selection_counterexample :
    verify_payload_signature cryptoAccept badKeyPayload = false ∧
    verify_signature cryptoAccept shaId "offer" (List.replicate 64 2)
      (List.replicate 32 1) = false := by
  exact ⟨by decide, by decide⟩

/-- C6 amended: the two verifiers accept disjoint key-length sets, neither
of which contains 32. `verify_payload_signature` (`src/main.rs`) hands the
primitive the raw serialized canonical payload exactly when the challenge is
32 bytes, the key 294 bytes and the signature 64 bytes;
`verify_signature` (`src/signaling/handlers.rs`) hands the primitive the
SHA-256 digest of the serialized message exactly when the key is 65 or 33
bytes (P-256 uncompressed/compressed point) and the signature 64 bytes; a
32-byte key is rejected by both without reaching the primitive. -/
theorem scheme_selection_amended (crypto : CryptoVerify) (sha256 : HashFn) :
    (∀ p : ConnectionVerificationPayload,
        p.challenge.length = 32 → p.public_key.length = 294 →
        p.signature.length = 64 →
        verify_payload_signature crypto p =
          crypto p.public_key p.signature
            (strToBytes (verificationMessage p))) ∧
    (∀ (d : String) (sig pk : Bytes),
        (pk.length = 65 ∨ pk.length = 33) → sig.length = 64 →
        verify_signature crypto sha256 d sig pk =
          crypto pk sig (sha256 (strToBytes d))) ∧
    (∀ p : ConnectionVerificationPayload, p.public_key.length = 32 →
        verify_payload_signature crypto p = false) ∧
    (∀ (d : String) (sig pk : Bytes), pk.length = 32 →
        verify_signature crypto sha256 d sig pk = false) := by
  refine ⟨?_, ?_, ?_, ?_⟩
  · intro p h1 h2 h3
    unfold verify_payload_signature
    split_ifs <;> simp_all
  · intro d sig pk hpk hsig
    unfold verify_signature
    rcases hpk with h | h <;> split_ifs <;> simp_all
  · intro p h
    unfold verify_payload_signature
    split_ifs <;> simp_all
  · intro d sig pk h
    unfold verify_signature
    split_ifs <;> simp_all

set_option maxRecDepth 8000 in
/-- Witness for `scheme_selection_amended`: the main verifier on the
294-byte-key payload reduces to the primitive's verdict on the canonical
message. -/
theorem scheme_selection_amended_witness :
    verify_payload_signature cryptoAccept offerPayload =
      cryptoAccept offerPayload.public_key offerPayload.signature
        (strToBytes (verificationMessage offerPayload)) :=
  (scheme_selection_amended cryptoAccept shaId).1 offerPayload
    (by decide) (by decide) (by decide)

/-! ## C8 — broadcast exclusion and byte-identical fan-out -/

/-- C8: in both broadcast routines the sender is never a recipient, and
every recipient is sent exactly the one serialization of the signal the
routine computed (byte-identical content for all recipients). -/
theorem broadcast_exclusion (signal : SignalMessage) (sender_addr : Addr)
    (reg : Registry) (signal2 : SecureSignalMessage) (reg2 : SecureRegistry) :
    (∀ out ∈ broadcast_to_peers signal sender_addr reg,
        out.1 ≠ sender_addr ∧ out.2 = serializeSignal signal) ∧
    (∀ out ∈ broadcast_to_verified_peers signal2 sender_addr reg2,
        out.1 ≠ sender_addr ∧ out.2 = serializeSecureSignal signal2) := by
  constructor
  · intro out hout
    unfold broadcast_to_peers at hout
    simp only [List.mem_map, List.mem_filter, decide_eq_true_eq] at hout
    obtain ⟨e, ⟨_, hne⟩, rfl⟩ := hout
    exact ⟨hne, rfl⟩
  · intro out hout
    unfold broadcast_to_verified_peers at hout
    simp only [List.mem_map, List.mem_filter, Bool.and_eq_true,
      decide_eq_true_eq] at hout
    obtain ⟨e, ⟨_, hne, _⟩, rfl⟩ := hout
    exact ⟨hne, rfl⟩

/-- Witness for `broadcast_exclusion`: the one recipient of an ice-candidate
broadcast from client 1 over the two-client registry. -/
theorem broadcast_exclusion_witness :
    (2 : Addr) ≠ 1 ∧
      serializeSignal iceSig = serializeSignal iceSig :=
  (broadcast_exclusion iceSig 1 regTwoFresh
      { signal_type := "x", payload := .rawText "x", sender_id := "x",
        timestamp := 0, signature := none } []).1
    (2, serializeSignal iceSig) (by decide)

/-! ## C1 — the ice-candidate verification gate -/

/-- C1 counterexample: in the `src/main.rs` dispatcher an `ice-candidate`
from client 1 is broadcast to client 2 although client 2 is in its freshly
registered state — no signature check ever succeeded for it (indeed
`ClientState` carries no verified flag at all, so no recipient filter
exists on this path). The claim that an unverified client is never sent the
ice-candidate message "in either dispatcher" is false for this one. -/
theorem ice_gate_counterexample :
    lookupClient regTwoFresh 2 = some freshClientState ∧
    (main_receive cryptoAccept 0 iceInbound 1 regTwoFresh).2.map Prod.fst
      = [2] := by
  exact ⟨by decide, by decide⟩

/-- C1 amended: the verification gate holds only in the secure dispatcher
(`src/signaling/server.rs`), where every recipient of a dispatched
`ice-candidate` is a registered client with `verified = true`; in the
challenge dispatcher (`src/main.rs`) an `ice-candidate` goes to every other
registered client unconditionally — `ClientState` has no verified flag and
`broadcast_to_peers` applies no filter. -/
theorem ice_gate_amended (crypto : CryptoVerify) (sha256 : HashFn) :
    (∀ (cid : String) (now : Int) (s0 : SecureSignalMessage) (addr : Addr)
        (reg : SecureRegistry) (res : SecureRegistry × List Sent),
        s0.signal_type = "ice-candidate" →
        secure_process crypto sha256 cid now (.wellFormed s0) addr reg
          = .ok res →
        ∀ out ∈ res.2, ∃ c : Client, (out.1, c) ∈ reg ∧ c.verified = true) ∧
    (∀ (now : Int) (s0 : SignalMessage) (addr : Addr) (reg : Registry),
        s0.signal_type = "ice-candidate" →
        (main_receive crypto now (.wellFormed s0) addr reg).2.map Prod.fst =
          (reg.filter (fun e => decide (e.1 ≠ addr))).map Prod.fst) := by
  constructor
  · intro cid now s0 addr reg res hty hrun out hout
    unfold secure_process at hrun
    simp only [hty] at hrun
    rw [if_neg (by decide), if_neg (by decide)] at hrun
    injection hrun with h
    subst h
    unfold broadcast_to_verified_peers at hout
    simp only [List.mem_map, List.mem_filter, Bool.and_eq_true,
      decide_eq_true_eq] at hout
    obtain ⟨e, ⟨he, _, hv⟩, rfl⟩ := hout
    exact ⟨e.2, he, hv⟩
  · intro now s0 addr reg hty
    unfold main_receive main_dispatch broadcast_to_peers
    simp [parseSignal, hty, List.map_map, Function.comp]

/-- Witness for `ice_gate_amended` on the challenge-dispatcher conjunct: the
concrete two-client registry. -/
theorem ice_gate_amended_witness :
    (main_receive cryptoAccept 0 iceInbound 1 regTwoFresh).2.map Prod.fst =
      (regTwoFresh.filter (fun e => decide (e.1 ≠ 1))).map Prod.fst :=
  (ice_gate_amended cryptoAccept shaId).2 0
    { signal_type := "ice-candidate", payload := .rawText "cand",
      sender_ip := none, timestamp := 99 } 1 regTwoFresh rfl

/-! ## C2 — verified implies stored public key -/

/-- A registered secure-server `Client` satisfies the specification's
invariant when a set verified flag is backed by a stored public key. -/
def clientInv (c : Client) : Prop := c.verified = true → c.public_key.isSome

/-- The invariant over a whole secure registry. -/
def secRegInv (reg : SecureRegistry) : Prop := ∀ e ∈ reg, clientInv e.2

/-- A secure-connection payload passing both length checks of
`verify_signature` (65-byte key, 64-byte signature). -/
def securePayloadOk : SecureConnectionPayload :=
  { offer := "ans", public_key := List.replicate 65 1,
    signature := List.replicate 64 2, nonce := [7] }

/-- A `secure-answer` envelope carrying `securePayloadOk`. -/
def secureAnswerMsg : SecureSignalMessage :=
  { signal_type := "secure-answer", payload := .secureConn securePayloadOk,
    sender_id := "x", timestamp := 0, signature := none }

/-- A secure registry holding one freshly registered client. -/
def regOneFreshSec : SecureRegistry := [(1, Client.new "id1" 1)]

/-- C2 counterexample: `handle_secure_answer` with a cryptographically valid
signature (the all-accepting primitive stands for one) marks the sender
`verified = true` but stores no public key, so the resulting registry entry
violates `verified == true → public_key.is_some()`. The invariant is NOT
preserved by every client-mutating operation. -/
theorem verified_key_counterexample :
    handle_secure_answer cryptoAccept shaId secureAnswerMsg 1 regOneFreshSec =
      .ok ([(1, { client_id := "id1", address := 1, public_key := none,
                  verified := true })], []) := rfl

/-- C2 amended: the invariant `verified → public_key.is_some()` is
established at registration (`Client::new`) and preserved by
`handle_secure_offer` (which stores the key and the flag together) and by
cleanup (which only removes entries); `handle_secure_answer` is the one
mutating operation that does not preserve it, since it sets `verified`
without storing the key it checked against. -/
theorem verified_key_amended (crypto : CryptoVerify) (sha256 : HashFn) :
    (∀ (cid : String) (a : Addr),
        (Client.new cid a).verified = false ∧
        (Client.new cid a).public_key = none) ∧
    (∀ (signal : SecureSignalMessage) (sender_addr : Addr)
        (reg : SecureRegistry) (res : SecureRegistry × List Sent),
        secRegInv reg →
        handle_secure_offer crypto sha256 signal sender_addr reg = .ok res →
        secRegInv res.1) ∧
    (∀ (a : Addr) (reg : SecureRegistry),
        secRegInv reg → secRegInv (secure_cleanup_client a reg)) := by
  refine ⟨fun cid a => ⟨rfl, rfl⟩, ?_, ?_⟩
  · intro signal sender_addr reg res hinv hrun
    unfold handle_secure_offer at hrun
    cases hp : parseSecureConn signal.payload with
    | none => simp [hp] at hrun
    | some payload =>
      simp only [hp] at hrun
      by_cases hv : verify_signature crypto sha256 payload.offer
          payload.signature payload.public_key = true
      · rw [if_pos hv] at hrun
        injection hrun with h
        subst h
        intro e he
        unfold updateSecure at he
        simp only [List.mem_map] at he
        obtain ⟨e0, he0, rfl⟩ := he
        by_cases hk : e0.1 = sender_addr
        · simp [hk, clientInv]
        · simpa [hk, clientInv] using hinv e0 he0
      · rw [if_neg hv] at hrun
        injection hrun with h
        subst h
        exact fun e he => hinv e he
  · intro a reg hinv e he
    unfold secure_cleanup_client removeSecure at he
    exact hinv e (List.mem_of_mem_filter he)

/-- Witness for `verified_key_amended`: cleanup of the one-client registry
keeps the invariant. -/
theorem verified_key_amended_witness :
    secRegInv (secure_cleanup_client 1 regOneFreshSec) :=
  (verified_key_amended cryptoAccept shaId).2.2 1 regOneFreshSec
    (by intro e he; simp only [regOneFreshSec, List.mem_singleton] at he
        subst he; intro h; cases h)

/-! ## C3 — replay of an already-resolved challenge -/

/-- A stored lookup result at key `c` means `contains_key` answers true. -/
theorem challengeContains_of_lookup {m : List (Bytes × Bool)} {c : Bytes}
    {b : Bool} (h : challengeLookup m c = some b) :
    challengeContains m c = true := by
  unfold challengeContains
  unfold challengeLookup at h
  cases hf : m.find? (fun e => decide (e.1 = c)) with
  | none => rw [hf] at h; cases h
  | some e => simp [hf]

/-- Overwriting an entry that already stores `true` with `true` leaves the
challenge map unchanged (keys assumed distinct, as a `HashMap` guarantees). -/
theorem challenge_replace_noop (c : Bytes) :
    ∀ m : List (Bytes × Bool), challengeLookup m c = some true →
      (m.map Prod.fst).Nodup →
      m.map (fun e => if e.1 = c then (c, true) else e) = m := by
  intro m
  induction m with
  | nil => intro h _; cases h
  | cons e rest ih =>
    intro h hnd
    simp only [List.map_cons, List.nodup_cons] at hnd
    by_cases hc : e.1 = c
    · have he2 : e.2 = true := by
        unfold challengeLookup at h
        rw [List.find?_cons_of_pos (p := fun x => decide (x.1 = c)) rest
          (by simpa using hc)] at h
        simpa using h
      have hrest : rest.map (fun x => if x.1 = c then ((c, true) : Bytes × Bool) else x)
          = rest := by
        have hall : ∀ x ∈ rest,
            (if x.1 = c then ((c, true) : Bytes × Bool) else x) = x := by
          intro x hx
          rw [if_neg]
          intro hxc
          exact hnd.1 (hc ▸ hxc ▸ List.mem_map_of_mem Prod.fst hx)
        rw [List.map_congr_left hall, List.map_id']
      rw [List.map_cons, if_pos hc, hrest]
      have : e = (c, true) := by
        obtain ⟨e1, e2⟩ := e
        simp only at hc he2
        rw [hc, he2]
      rw [← this]
    · have h' : challengeLookup rest c = some true := by
        unfold challengeLookup at h ⊢
        rw [List.find?_cons_of_neg (p := fun x => decide (x.1 = c)) rest
          (by simpa using hc)] at h
        exact h
      rw [List.map_cons, if_neg hc, ih h' hnd.2]

/-- Inserting `HashMap::insert(c, true)` on a map that already resolves `c` is the
identity. -/
theorem challengeInsert_resolved_noop (m : List (Bytes × Bool)) (c : Bytes)
    (h : challengeLookup m c = some true) (hnd : (m.map Prod.fst).Nodup) :
    challengeInsert m c true = m := by
  unfold challengeInsert
  rw [if_pos (challengeContains_of_lookup h), challenge_replace_noop c m h hnd]

/-- With distinct registry keys, the entry a lookup finds is the only entry
at its key. -/
theorem lookupClient_unique :
    ∀ (reg : Registry) (a : Addr) (st : ClientState),
      (reg.map Prod.fst).Nodup → lookupClient reg a = some st →
      ∀ e ∈ reg, e.1 = a → e = (a, st) := by
  intro reg
  induction reg with
  | nil => intro a st _ hlk e he; cases he
  | cons e0 rest ih =>
    intro a st hnd hlk e he hea
    simp only [List.map_cons, List.nodup_cons] at hnd
    by_cases h0 : e0.1 = a
    · have hst : e0.2 = st := by
        unfold lookupClient at hlk
        rw [List.find?_cons_of_pos (p := fun x => decide (x.1 = a)) rest
          (by simpa using h0)] at hlk
        simpa using hlk
      rcases List.mem_cons.mp he with rfl | hmem
      · obtain ⟨x1, x2⟩ := e
        simp only at h0 hst hea
        rw [hea, hst]
      · exact absurd (h0 ▸ hea ▸ List.mem_map_of_mem Prod.fst hmem) hnd.1
    · have hlk' : lookupClient rest a = some st := by
        unfold lookupClient at hlk ⊢
        rw [List.find?_cons_of_neg (p := fun x => decide (x.1 = a)) rest
          (by simpa using h0)] at hlk
        exact hlk
      rcases List.mem_cons.mp he with rfl | hmem
      · exact absurd hea h0
      · exact ih a st hnd.2 hlk' e hmem hea

/-- A `get_mut` mutation with a pointwise-identity function is the identity on
the registry. -/
theorem updateClient_noop (reg : Registry) (a : Addr)
    (f : ClientState → ClientState)
    (h : ∀ e ∈ reg, e.1 = a → f e.2 = e.2) :
    updateClient reg a f = reg := by
  unfold updateClient
  have hall : ∀ e ∈ reg, (if e.1 = a then (e.1, f e.2) else e) = e := by
    intro e he
    by_cases hea : e.1 = a
    · rw [if_pos hea, h e he hea]
    · rw [if_neg hea]
  rw [List.map_congr_left hall, List.map_id']

/-- A client whose map stores `c` as resolved. -/
def stResolved : ClientState :=
  { connected_peers := [], is_screen_sharing := false,
    challenges := [([7], true)] }

/-- Registry where client 1 has already resolved challenge `[7]` and client
2 is fresh. -/
def regResolved : Registry := [(1, stResolved), (2, freshClientState)]

/-- A second `challenge-response` carrying the already-resolved nonce. -/
def replayMsg : SignalMessage :=
  { signal_type := "challenge-response",
    payload := .challengeResp { challenge := [7], challenge_response := [] },
    sender_ip := some (ipOf 1), timestamp := 5 }

/-- C3 counterexample: replaying a `challenge-response` for a nonce the
sender's map already resolves leaves the registry unchanged — but it DOES
trigger another `connection-verified` broadcast (client 2 is sent it again),
because `handle_challenge_response` tests only `contains_key` and never the
stored resolved flag. The claim's "triggers no additional
connection-verified broadcast" is false. -/
theorem challenge_replay_counterexample :
    (handle_challenge_response replayMsg 1 5 regResolved).1 = regResolved ∧
    (handle_challenge_response replayMsg 1 5 regResolved).2 =
      [(2, serializeSignal (connection_verified_signal 1 5))] :=
  ⟨rfl, rfl⟩

/-- C3 amended: processing a second `challenge-response` for an
already-resolved nonce leaves the registry state identical to the state
after the first resolution, but it is not rejected: the
`connection-verified` broadcast to every other client is emitted again
(the code checks key presence only, not the resolved flag). -/
theorem challenge_replay_amended (signal : SignalMessage)
    (sender_addr : Addr) (now : Int) (reg : Registry)
    (p : ChallengeResponsePayload) (st : ClientState)
    (hp : parseChallengeResp signal.payload = some p)
    (hlk : lookupClient reg sender_addr = some st)
    (hres : challengeLookup st.challenges p.challenge = some true)
    (hnd : (reg.map Prod.fst).Nodup)
    (hndch : (st.challenges.map Prod.fst).Nodup) :
    handle_challenge_response signal sender_addr now reg =
      (reg, broadcast_to_peers (connection_verified_signal sender_addr now)
        sender_addr reg) := by
  unfold handle_challenge_response
  simp only [hp, hlk]
  rw [if_pos (challengeContains_of_lookup hres)]
  have hreg : updateClient reg sender_addr (fun s =>
      { s with challenges := challengeInsert s.challenges p.challenge true })
      = reg := by
    apply updateClient_noop
    intro e he hea
    have he1 : e = (sender_addr, st) :=
      lookupClient_unique reg sender_addr st hnd hlk e he hea
    rw [he1]
    show ({ st with
      challenges := challengeInsert st.challenges p.challenge true }) = st
    rw [challengeInsert_resolved_noop st.challenges p.challenge hres hndch]
  rw [hreg]

/-- Witness for `challenge_replay_amended` at the concrete replay
scenario. -/
theorem challenge_replay_amended_witness :
    handle_challenge_response replayMsg 1 5 regResolved =
      (regResolved,
        broadcast_to_peers (connection_verified_signal 1 5) 1 regResolved) :=
  challenge_replay_amended replayMsg 1 5 regResolved
    { challenge := [7], challenge_response := [] } stResolved rfl rfl rfl
    (by decide) (by decide)

/-! ## C4 — malformed payloads and connection termination -/

/-- A `secure-offer` envelope whose payload does not deserialize as a
`SecureConnectionPayload`. -/
def badOfferInbound : SecureInbound :=
  .wellFormed { signal_type := "secure-offer", payload := .rawText "garbage",
                sender_id := "", timestamp := 0, signature := none }

/-- A well-formed `ice-candidate` frame for the secure server, queued after
the malformed offer. -/
def iceSecInbound : SecureInbound :=
  .wellFormed { signal_type := "ice-candidate", payload := .rawText "c",
                sender_id := "", timestamp := 0, signature := none }

/-- C4 counterexample: in `src/signaling/server.rs` a malformed
`secure-offer` payload is fatal — `handle_secure_offer` propagates the parse
error through `?`, `handle_connection` returns early, the queued
`ice-candidate` frame is never processed and the loop ends with the error
(skipping cleanup). The claim that a malformed payload never terminates the
connection is false for this dispatcher. -/
theorem malformed_payload_counterexample :
    secure_loop cryptoAccept shaId "cid" 0 1 [badOfferInbound, iceSecInbound]
      regOneFreshSec =
      (regOneFreshSec, [], some "invalid SecureConnectionPayload") := rfl

/-- C4 amended: in the `src/main.rs` dispatcher every malformed frame or
payload is non-fatal — an unparseable envelope is dropped with no state
change, a payload that fails to deserialize for its signal type
(offer-with-challenge, challenge-response, chat; the remaining types parse
no payload) is dropped with no state change and no output, and the receive
loop unconditionally continues past every frame. In the
`src/signaling/server.rs` dispatcher a malformed envelope is likewise
skipped non-fatally, but a `secure-offer` or `secure-answer` whose payload
fails to deserialize terminates the receive loop with an error, leaving the
remaining messages unprocessed. -/
theorem malformed_payload_amended (crypto : CryptoVerify) (sha256 : HashFn)
    (cid : String) (now : Int) (addr : Addr) :
    (∀ (m : Inbound) (rest : List Inbound) (reg : Registry),
        parseSignal m = none →
        main_loop crypto now addr (m :: rest) reg =
          main_loop crypto now addr rest reg) ∧
    (∀ (s0 : SignalMessage) (reg : Registry),
        s0.signal_type = "offer-with-challenge" →
        parseConnVerification s0.payload = none →
        main_receive crypto now (.wellFormed s0) addr reg = (reg, [])) ∧
    (∀ (s0 : SignalMessage) (reg : Registry),
        s0.signal_type = "challenge-response" →
        parseChallengeResp s0.payload = none →
        main_receive crypto now (.wellFormed s0) addr reg = (reg, [])) ∧
    (∀ (s0 : SignalMessage) (reg : Registry),
        s0.signal_type = "chat" →
        parseChat s0.payload = none →
        main_receive crypto now (.wellFormed s0) addr reg = (reg, [])) ∧
    (∀ (m : Inbound) (rest : List Inbound) (reg : Registry),
        main_loop crypto now addr (m :: rest) reg =
          ((main_loop crypto now addr rest
              (main_receive crypto now m addr reg).1).1,
           (main_receive crypto now m addr reg).2 ++
             (main_loop crypto now addr rest
               (main_receive crypto now m addr reg).1).2)) ∧
    (∀ (t : String) (rest : List SecureInbound) (reg : SecureRegistry),
        secure_loop crypto sha256 cid now addr (.malformed t :: rest) reg =
          secure_loop crypto sha256 cid now addr rest reg) ∧
    (∀ (s0 : SecureSignalMessage) (rest : List SecureInbound)
        (reg : SecureRegistry),
        s0.signal_type = "secure-offer" →
        parseSecureConn s0.payload = none →
        secure_loop crypto sha256 cid now addr (.wellFormed s0 :: rest) reg =
          (reg, [], some "invalid SecureConnectionPayload")) ∧
    (∀ (s0 : SecureSignalMessage) (rest : List SecureInbound)
        (reg : SecureRegistry),
        s0.signal_type = "secure-answer" →
        parseSecureConn s0.payload = none →
        secure_loop crypto sha256 cid now addr (.wellFormed s0 :: rest) reg =
          (reg, [], some "invalid SecureConnectionPayload")) := by
  refine ⟨?_, ?_, ?_, ?_, ?_, ?_, ?_, ?_⟩
  · intro m rest reg hm
    simp only [main_loop, main_receive, hm]
    rfl
  · intro s0 reg hty hpay
    unfold main_receive main_dispatch handle_offer_with_challenge
    simp [parseSignal, hty, hpay]
  · intro s0 reg hty hpay
    unfold main_receive main_dispatch handle_challenge_response
    simp [parseSignal, hty, hpay]
  · intro s0 reg hty hpay
    unfold main_receive main_dispatch handle_chat
    simp [parseSignal, hty, hpay]
  · intro m rest reg
    simp only [main_loop]
  · intro t rest reg
    simp only [secure_loop, secure_process]
    rfl
  · intro s0 rest reg hty hpay
    simp only [secure_loop, secure_process, handle_secure_offer]
    simp [hty, hpay]
  · intro s0 rest reg hty hpay
    simp only [secure_loop, secure_process, handle_secure_offer,
      handle_secure_answer]
    simp [hty, hpay]

/-- Witness for `malformed_payload_amended`: the concrete malformed
secure-offer terminates the secure loop at once. -/
theorem malformed_payload_amended_witness :
    secure_loop cryptoAccept shaId "cid" 0 1 [badOfferInbound]
      regOneFreshSec =
      (regOneFreshSec, [], some "invalid SecureConnectionPayload") :=
  (malformed_payload_amended cryptoAccept shaId "cid" 0 1).2.2.2.2.2.2.1
    { signal_type := "secure-offer", payload := .rawText "garbage",
      sender_id := "", timestamp := 0, signature := none } [] regOneFreshSec
    rfl rfl

/-! ## C7 — the end-to-end challenge flow -/

/-- After a replacing insert, the map stores the inserted flag at the key
(the replacement branch). -/
theorem lookup_replace (c : Bytes) (v : Bool) :
    ∀ m : List (Bytes × Bool), challengeContains m c = true →
      challengeLookup (m.map (fun x => if x.1 = c then (c, v) else x)) c =
        some v := by
  intro m
  induction m with
  | nil => intro h; cases h
  | cons e rest ih =>
    intro h
    by_cases hc : e.1 = c
    · unfold challengeLookup
      rw [List.map_cons, if_pos hc,
        List.find?_cons_of_pos (p := fun x : Bytes × Bool => decide (x.1 = c)) _ (by simp)]
      rfl
    · have h' : challengeContains rest c = true := by
        unfold challengeContains at h
        rw [List.find?_cons_of_neg (p := fun x : Bytes × Bool => decide (x.1 = c)) rest
          (by simpa using hc)] at h
        exact h
      unfold challengeLookup
      rw [List.map_cons, if_neg hc,
        List.find?_cons_of_neg (p := fun x : Bytes × Bool => decide (x.1 = c)) _
          (by simpa using hc)]
      exact ih h'

/-- After an appending insert, the map stores the inserted flag at the key
(the fresh-key branch). -/
theorem lookup_append_new (c : Bytes) (v : Bool) :
    ∀ m : List (Bytes × Bool), challengeContains m c = false →
      challengeLookup (m ++ [(c, v)]) c = some v := by
  intro m
  induction m with
  | nil =>
    intro _
    unfold challengeLookup
    rw [List.nil_append,
      List.find?_cons_of_pos (p := fun x : Bytes × Bool => decide (x.1 = c)) _ (by simp)]
    rfl
  | cons e rest ih =>
    intro h
    have hc : ¬ e.1 = c := by
      intro hc
      unfold challengeContains at h
      rw [List.find?_cons_of_pos (p := fun x : Bytes × Bool => decide (x.1 = c)) rest
        (by simpa using hc)] at h
      simp at h
    have h' : challengeContains rest c = false := by
      unfold challengeContains at h
      rw [List.find?_cons_of_neg (p := fun x : Bytes × Bool => decide (x.1 = c)) rest
        (by simpa using hc)] at h
      exact h
    unfold challengeLookup
    rw [List.cons_append,
      List.find?_cons_of_neg (p := fun x : Bytes × Bool => decide (x.1 = c)) _
        (by simpa using hc)]
    exact ih h'

/-- Inserting `insert(c, v)` always leaves `v` stored at key `c`. -/
theorem challengeLookup_insert (m : List (Bytes × Bool)) (c : Bytes)
    (v : Bool) : challengeLookup (challengeInsert m c v) c = some v := by
  unfold challengeInsert
  by_cases hcon : challengeContains m c = true
  · rw [if_pos hcon]
    exact lookup_replace c v m hcon
  · rw [if_neg hcon]
    exact lookup_append_new c v m (by simpa using hcon)

/-- Lookup after a `get_mut` mutation at the same key applies the mutation
to the looked-up state. -/
theorem lookupClient_updateClient (a : Addr) (f : ClientState → ClientState) :
    ∀ reg : Registry,
      lookupClient (updateClient reg a f) a = (lookupClient reg a).map f := by
  intro reg
  induction reg with
  | nil => rfl
  | cons e rest ih =>
    by_cases hc : e.1 = a
    · unfold lookupClient updateClient
      rw [List.map_cons, if_pos hc,
        List.find?_cons_of_pos (p := fun x : Addr × ClientState => decide (x.1 = a)) _
          (by simpa using hc),
        List.find?_cons_of_pos (p := fun x : Addr × ClientState => decide (x.1 = a)) rest
          (by simpa using hc)]
      rfl
    · unfold lookupClient updateClient
      rw [List.map_cons, if_neg hc,
        List.find?_cons_of_neg (p := fun x : Addr × ClientState => decide (x.1 = a)) _
          (by simpa using hc),
        List.find?_cons_of_neg (p := fun x : Addr × ClientState => decide (x.1 = a)) rest
          (by simpa using hc)]
      exact ih

/-- A `get_mut` mutation never changes the set of recipient keys a broadcast
sees: key-filtered key lists agree before and after. -/
theorem filter_keys_updateClient (a s : Addr) (f : ClientState → ClientState) :
    ∀ reg : Registry,
      ((updateClient reg a f).filter (fun e => decide (e.1 ≠ s))).map Prod.fst
        = (reg.filter (fun e => decide (e.1 ≠ s))).map Prod.fst := by
  intro reg
  induction reg with
  | nil => rfl
  | cons e rest ih =>
    have hfst : (if e.1 = a then (e.1, f e.2) else e).1 = e.1 := by
      by_cases hc : e.1 = a <;> simp [hc]
    unfold updateClient
    rw [List.map_cons]
    by_cases hp : e.1 ≠ s
    · rw [List.filter_cons_of_pos (by simp [hfst, hp]),
        List.filter_cons_of_pos (by simp [hp]), List.map_cons, List.map_cons,
        hfst]
      exact congrArg (fun l => e.1 :: l) ih
    · rw [List.filter_cons_of_neg (by simp [hfst, hp]),
        List.filter_cons_of_neg (by simp [hp])]
      exact ih

/-- The recipient keys of a broadcast are the registry keys other than the
sender. -/
theorem broadcast_keys (signal : SignalMessage) (s : Addr) (reg : Registry) :
    (broadcast_to_peers signal s reg).map Prod.fst =
      (reg.filter (fun e => decide (e.1 ≠ s))).map Prod.fst := by
  unfold broadcast_to_peers
  rw [List.map_map]
  exact List.map_congr_left (fun e _ => rfl)

/-- C7 amended: the first half of the scenario holds — a valid
`offer-with-challenge` from A stores `(c1, unresolved)` under A's own entry
and sends the `challenge-response` envelope containing `c1` to every other
registered client, B included. The second half does not: the responding
peer's `challenge-response` is looked up in the RESPONDER's challenge map
(which does not hold `c1` — the nonce was stored under A), so B's reply
changes nothing and triggers no `connection-verified`; only A itself
replaying `c1` marks it resolved and triggers the broadcast. -/
theorem e2e_challenge_amended (crypto : CryptoVerify) (now now2 : Int)
    (signal : SignalMessage) (A : Addr) (reg : Registry)
    (p : ConnectionVerificationPayload) (enc : EncryptedPayload)
    (stA : ClientState)
    (hp : parseConnVerification signal.payload = some p)
    (he : p.encrypted_data = some enc)
    (hev : validate_encrypted_payload enc = .ok ())
    (hver : verify_payload_signature crypto p = true)
    (hlkA : lookupClient reg A = some stA) :
    (lookupClient (handle_offer_with_challenge crypto signal A now reg).1 A =
        some { stA with
          challenges := challengeInsert stA.challenges p.challenge false } ∧
      challengeLookup
        (challengeInsert stA.challenges p.challenge false) p.challenge =
        some false) ∧
    ((handle_offer_with_challenge crypto signal A now reg).2.map Prod.fst =
        (reg.filter (fun e => decide (e.1 ≠ A))).map Prod.fst ∧
      ∀ out ∈ (handle_offer_with_challenge crypto signal A now reg).2,
        out.2 = serializeSignal (challenge_response_envelope p A now)) ∧
    (∀ (B : Addr) (stB : ClientState) (rsig : SignalMessage)
        (q : ChallengeResponsePayload) (reg' : Registry),
        parseChallengeResp rsig.payload = some q →
        lookupClient reg' B = some stB →
        challengeContains stB.challenges q.challenge = false →
        handle_challenge_response rsig B now2 reg' = (reg', [])) ∧
    (∀ (rsig : SignalMessage) (q : ChallengeResponsePayload)
        (reg' : Registry) (st' : ClientState),
        parseChallengeResp rsig.payload = some q →
        lookupClient reg' A = some st' →
        challengeContains st'.challenges q.challenge = true →
        handle_challenge_response rsig A now2 reg' =
          (updateClient reg' A (fun s =>
            { s with
              challenges := challengeInsert s.challenges q.challenge true }),
           broadcast_to_peers (connection_verified_signal A now2) A
             (updateClient reg' A (fun s =>
               { s with
                 challenges :=
                   challengeInsert s.challenges q.challenge true })))) := by
  have hrun : handle_offer_with_challenge crypto signal A now reg =
      (updateClient reg A (fun st =>
        { st with
          challenges := challengeInsert st.challenges p.challenge false }),
       broadcast_to_peers (challenge_response_envelope p A now) A
         (updateClient reg A (fun st =>
           { st with
             challenges :=
               challengeInsert st.challenges p.challenge false }))) := by
    unfold handle_offer_with_challenge
    simp only [hp, he, hev]
    rw [if_pos hver]
  have hrun1 : (handle_offer_with_challenge crypto signal A now reg).1 =
      updateClient reg A (fun st =>
        { st with
          challenges := challengeInsert st.challenges p.challenge false }) := by
    rw [hrun]
  have hrun2 : (handle_offer_with_challenge crypto signal A now reg).2 =
      broadcast_to_peers (challenge_response_envelope p A now) A
        (updateClient reg A (fun st =>
          { st with
            challenges := challengeInsert st.challenges p.challenge false })) := by
    rw [hrun]
  refine ⟨⟨?_, challengeLookup_insert _ _ _⟩, ⟨?_, ?_⟩, ?_, ?_⟩
  · rw [hrun1, lookupClient_updateClient, hlkA]
    rfl
  · rw [hrun2, broadcast_keys, filter_keys_updateClient]
  · rw [hrun2]
    intro out hout
    unfold broadcast_to_peers at hout
    simp only [List.mem_map, List.mem_filter] at hout
    obtain ⟨e, _, rfl⟩ := hout
    rfl
  · intro B stB rsig q reg' hq hlkB hcon
    unfold handle_challenge_response
    simp only [hq, hlkB]
    rw [if_neg (by simp [hcon])]
  · intro rsig q reg' st' hq hlk' hcon
    unfold handle_challenge_response
    simp only [hq, hlk']
    rw [if_pos hcon]

/-- The offer envelope of the concrete end-to-end scenario, as stamped by
the receive loop of client 1. -/
def offerMsg : SignalMessage :=
  { signal_type := "offer-with-challenge",
    payload := .connVerification offerPayload,
    sender_ip := some (ipOf 1), timestamp := 10 }

/-- The same offer on the wire, before stamping. -/
def offerInbound : Inbound :=
  .wellFormed { signal_type := "offer-with-challenge",
                payload := .connVerification offerPayload,
                sender_ip := none, timestamp := 0 }

/-- Client B's `challenge-response` reply carrying the nonce `c1Bytes` it
just received. -/
def respInboundB : Inbound :=
  .wellFormed { signal_type := "challenge-response",
                payload := .challengeResp
                  { challenge := c1Bytes, challenge_response := [] },
                sender_ip := none, timestamp := 0 }

/-- The registry after client 1's valid offer has been processed. -/
def c7reg1 : Registry :=
  (main_receive cryptoAccept 10 offerInbound 1 regTwoFresh).1

set_option maxRecDepth 8000 in
/-- C7 counterexample: in the concrete two-client scenario the offer from A
(client 1) does reach B (client 2) as a `challenge-response` envelope
containing `c1` — but when B then sends `challenge-response` with
`challenge = c1`, the handler consults B's own (empty) challenge map:
nothing is resolved, A's entry still shows `c1` unresolved, and no
`connection-verified` signal is sent to anyone. The claimed second half of
the flow is false. -/
theorem e2e_challenge_counterexample :
    (main_receive cryptoAccept 10 offerInbound 1 regTwoFresh).2 =
      [(2, serializeSignal (challenge_response_envelope offerPayload 1 10))] ∧
    main_receive cryptoAccept 11 respInboundB 2 c7reg1 = (c7reg1, []) ∧
    lookupClient c7reg1 1 =
      some { freshClientState with challenges := [(c1Bytes, false)] } :=
  ⟨rfl, rfl, rfl⟩

set_option maxRecDepth 8000 in
/-- Witness for `e2e_challenge_amended` at the concrete scenario: the offer
stores `c1` unresolved under client 1. -/
theorem e2e_challenge_amended_witness :
    lookupClient
        (handle_offer_with_challenge cryptoAccept offerMsg 1 10 regTwoFresh).1
        1 =
      some { freshClientState with
        challenges :=
          challengeInsert freshClientState.challenges
            offerPayload.challenge false } :=
  ((e2e_challenge_amended cryptoAccept 10 11 offerMsg 1 regTwoFresh
      offerPayload offerEnc freshClientState rfl rfl rfl (by decide)
      rfl).1).1

/-! ## C9 — the registry lock across suspension points -/

/-- C9: the source violates the locking discipline in both named places.
`handle_screen_share` calls `broadcast_to_peers` while its own guard on the
registry mutex is still alive, so the broadcast's `clients.lock().await`
re-acquires the non-reentrant lock at depth 1 (a self-deadlock, for any
registered sender); and every broadcast with at least one recipient awaits a
channel send at lock depth 1 — the lock is held across the suspension
point. -/
theorem lock_discipline_bug (reg : Registry) (sender_addr : Addr)
    (h : (lookupClient reg sender_addr).isSome = true) :
    lockDiscipline (handle_screen_share_events reg sender_addr) = false ∧
    ∀ (reg2 : Registry) (s2 : Addr) (e : Addr × ClientState),
      e ∈ reg2 → e.1 ≠ s2 →
      lockDiscipline (broadcast_to_peers_events reg2 s2) = false := by
  constructor
  · unfold lockDiscipline handle_screen_share_events broadcast_to_peers_events
    rw [if_pos h]
    simp [lockDepthOk]
  · intro reg2 s2 e he hne
    unfold lockDiscipline broadcast_to_peers_events
    have hmem : e ∈ reg2.filter (fun x => decide (x.1 ≠ s2)) :=
      List.mem_filter.mpr ⟨he, by simpa using hne⟩
    obtain ⟨x, xs, hf⟩ : ∃ x xs,
        reg2.filter (fun x => decide (x.1 ≠ s2)) = x :: xs := by
      cases hf : reg2.filter (fun x => decide (x.1 ≠ s2)) with
      | nil => rw [hf] at hmem; cases hmem
      | cons x xs => exact ⟨x, xs, rfl⟩
    rw [hf]
    simp [lockDepthOk]

/-- Witness for `lock_discipline_bug`: a registered client 1 sending
screen-share over the two-client registry. -/
theorem lock_discipline_bug_witness :
    lockDiscipline (handle_screen_share_events regTwoFresh 1) = false :=
  (lock_discipline_bug regTwoFresh 1 (by decide)).1

/-! ## C10 — connected_peers stays empty; cleanup notifies nobody -/

/-- Every registered client of the challenge server has an empty
`connected_peers` list. -/
def peersEmpty (reg : Registry) : Prop :=
  ∀ e ∈ reg, e.2.connected_peers = []

/-- Mutations that do not touch `connected_peers` preserve `peersEmpty`. -/
theorem peersEmpty_updateClient {reg : Registry} {a : Addr}
    {f : ClientState → ClientState} (h : peersEmpty reg)
    (hf : ∀ st, (f st).connected_peers = st.connected_peers) :
    peersEmpty (updateClient reg a f) := by
  intro e he
  unfold updateClient at he
  simp only [List.mem_map] at he
  obtain ⟨e0, he0, rfl⟩ := he
  by_cases hc : e0.1 = a
  · rw [if_pos hc]
    show (f e0.2).connected_peers = []
    rw [hf]
    exact h e0 he0
  · rw [if_neg hc]
    exact h e0 he0

/-- Filtering preserves `peersEmpty`. -/
theorem peersEmpty_filter {reg : Registry} (p : Addr × ClientState → Bool)
    (h : peersEmpty reg) : peersEmpty (reg.filter p) :=
  fun e he => h e (List.mem_of_mem_filter he)

/-- Handler `handle_offer_with_challenge` preserves `peersEmpty`. -/
theorem peersEmpty_offer (crypto : CryptoVerify) (signal : SignalMessage)
    (a : Addr) (now : Int) (reg : Registry) (h : peersEmpty reg) :
    peersEmpty (handle_offer_with_challenge crypto signal a now reg).1 := by
  unfold handle_offer_with_challenge
  repeat' split
  all_goals
    dsimp only
    first
      | exact h
      | (apply peersEmpty_updateClient h; intro st; rfl)

/-- Handler `handle_challenge_response` preserves `peersEmpty`. -/
theorem peersEmpty_challenge_response (signal : SignalMessage) (a : Addr)
    (now : Int) (reg : Registry) (h : peersEmpty reg) :
    peersEmpty (handle_challenge_response signal a now reg).1 := by
  unfold handle_challenge_response
  repeat' split
  all_goals
    dsimp only
    first
      | exact h
      | (apply peersEmpty_updateClient h; intro st; rfl)

/-- Handler `handle_answer` preserves `peersEmpty`. -/
theorem peersEmpty_answer (signal : SignalMessage) (a : Addr)
    (reg : Registry) (h : peersEmpty reg) :
    peersEmpty (handle_answer signal a reg).1 := h

/-- Handler `handle_chat` preserves `peersEmpty`. -/
theorem peersEmpty_chat (signal : SignalMessage) (a : Addr) (reg : Registry)
    (h : peersEmpty reg) : peersEmpty (handle_chat signal a reg).1 := by
  unfold handle_chat
  repeat' split
  all_goals exact h

/-- Handler `handle_screen_share` preserves `peersEmpty`. -/
theorem peersEmpty_screen_share (signal : SignalMessage) (a : Addr)
    (reg : Registry) (h : peersEmpty reg) :
    peersEmpty (handle_screen_share signal a reg).1 := by
  unfold handle_screen_share
  repeat' split
  all_goals
    dsimp only
    first
      | exact h
      | (apply peersEmpty_updateClient h; intro st; rfl)

/-- The whole dispatch table preserves `peersEmpty`. -/
theorem peersEmpty_dispatch (crypto : CryptoVerify) (signal : SignalMessage)
    (a : Addr) (now : Int) (reg : Registry) (h : peersEmpty reg) :
    peersEmpty (main_dispatch crypto signal a now reg).1 := by
  unfold main_dispatch
  split_ifs
  · exact peersEmpty_offer crypto signal a now reg h
  · exact peersEmpty_challenge_response signal a now reg h
  · exact peersEmpty_answer signal a reg h
  · exact h
  · exact peersEmpty_chat signal a reg h
  · exact peersEmpty_screen_share signal a reg h
  · exact h

/-- One receive-loop iteration preserves `peersEmpty`. -/
theorem peersEmpty_receive (crypto : CryptoVerify) (now : Int)
    (msg : Inbound) (a : Addr) (reg : Registry) (h : peersEmpty reg) :
    peersEmpty (main_receive crypto now msg a reg).1 := by
  unfold main_receive
  split
  · exact h
  · exact peersEmpty_dispatch crypto _ a now reg h

/-- Function `cleanup_client` preserves `peersEmpty` on the registry. -/
theorem peersEmpty_cleanup (a : Addr) (now : Int) (reg : Registry)
    (h : peersEmpty reg) : peersEmpty (cleanup_client a now reg).1 := by
  unfold cleanup_client
  split
  · exact h
  · exact peersEmpty_filter _ h

/-- Every transition of the challenge server preserves `peersEmpty`. -/
theorem peersEmpty_step (crypto : CryptoVerify) (reg : Registry)
    (ev : MainEvent) (h : peersEmpty reg) :
    peersEmpty (main_step crypto reg ev) := by
  cases ev with
  | register a =>
    intro e he
    unfold main_step insertClient removeClient at he
    rcases List.mem_cons.mp he with rfl | hmem
    · rfl
    · exact h e (List.mem_of_mem_filter hmem)
  | receive a now msg => exact peersEmpty_receive crypto now msg a reg h
  | disconnect a now => exact peersEmpty_cleanup a now reg h

/-- C10: in every reachable challenge-server registry state, every
registered client's `connected_peers` list is empty — it starts empty at
registration and no handler ever appends to it — and consequently
`cleanup_client` removes the departing entry but sends `peer-disconnected`
to nobody. -/
theorem connected_peers_always_empty (crypto : CryptoVerify)
    (reg : Registry) (h : Reachable crypto reg) :
    (∀ e ∈ reg, e.2.connected_peers = []) ∧
      ∀ (a : Addr) (now : Int), (cleanup_client a now reg).2 = [] := by
  have hpe : peersEmpty reg := by
    induction h with
    | init => intro e he; cases he
    | step hr ev ih => exact peersEmpty_step crypto _ ev ih
  refine ⟨hpe, fun a now => ?_⟩
  unfold cleanup_client
  cases hlk : lookupClient reg a with
  | none => rfl
  | some st =>
    have hst : st.connected_peers = [] := by
      unfold lookupClient at hlk
      cases hf : reg.find? (fun e => decide (e.1 = a)) with
      | none => rw [hf] at hlk; cases hlk
      | some e0 =>
        rw [hf] at hlk
        simp only [Option.map_some'] at hlk
        injection hlk with hlk2
        rw [← hlk2]
        exact hpe e0 (List.mem_of_find?_eq_some hf)
    simp [hst]

/-- Witness for `connected_peers_always_empty`: after two registrations,
cleanup of client 1 notifies nobody. -/
theorem connected_peers_always_empty_witness :
    (cleanup_client 1 0 (main_step cryptoAccept
      (main_step cryptoAccept [] (.register 1)) (.register 2))).2 = [] :=
  (connected_peers_always_empty cryptoAccept _
    (Reachable.step (Reachable.step Reachable.init (.register 1))
      (.register 2))).2 1 0

end PeerConference
